import Mathlib

/-!
Verification of the multi-source paper-search layer of nnscholar-search.

The Python modules under `src/utils/` (`arxiv_client.py`, `pubmed_client.py`,
`semantic_scholar_client.py`, `paper_source_manager.py`) are shallowly embedded
below.  Python dictionaries holding paper records become ordered association
lists over a small model `PyVal` of Python values; HTTP servers become oracles
mapping the attempt number to a response, so each client's transport/retry loop
is an explicit fuel recursion; every embedded search function also returns the
list of network requests it issued, so "performs no network request" is a
provable statement.
-/

set_option maxRecDepth 100000

namespace NNScholar

/-! ### Python value model

Paper records are Python dicts.  We model a dict as an insertion-ordered
association list, and Python values by the small closed type `PyVal` (the only
values the embedded code ever stores in a record). -/

inductive PyVal where
  | none
  | str (s : String)
  | int (n : Int)
  | list (vs : List PyVal)
  | dict (kvs : List (String × PyVal))
  deriving Repr

/-- Record models a Python dict with string keys (insertion ordered). -/
abbrev Record := List (String × PyVal)

mutual
/-- Structural equality on `PyVal`, modelling Python ==. -/
def PyVal.beq : PyVal → PyVal → Bool
  | .none, .none => true
  | .str a, .str b => a == b
  | .int a, .int b => a == b
  | .list a, .list b => PyVal.beqList a b
  | .dict a, .dict b => PyVal.beqDict a b
  | _, _ => false

def PyVal.beqList : List PyVal → List PyVal → Bool
  | [], [] => true
  | a :: as, b :: bs => PyVal.beq a b && PyVal.beqList as bs
  | _, _ => false

def PyVal.beqDict : List (String × PyVal) → List (String × PyVal) → Bool
  | [], [] => true
  | (k, v) :: as, (k', v') :: bs => k == k' && PyVal.beq v v' && PyVal.beqDict as bs
  | _, _ => false
end

/-- Membership in a Python set of ids (`paper_id in seen_paper_ids`). -/
def pyMem (x : PyVal) (l : List PyVal) : Bool := l.any (fun y => PyVal.beq x y)

/-- Python truthiness for the values our records hold. -/
def truthy : PyVal → Bool
  | .none => false
  | .str s => s != ""
  | .int n => n != 0
  | .list vs => !vs.isEmpty
  | .dict kvs => !kvs.isEmpty

/-- Dict lookup, modelling `d.get(k)`: `Option.none` means the key is absent
(Python's `.get` default `None`). -/
def pyGet : Record → String → Option PyVal
  | [], _ => Option.none
  | (k', v) :: rest, k => if k' == k then some v else pyGet rest k

/-- Dict item assignment `d[k] = v`: replaces the value in place if the key
exists (keeping its position, as Python dicts do), else appends the new key. -/
def pySet : Record → String → PyVal → Record
  | [], k, v => [(k, v)]
  | (k', v') :: rest, k, v =>
    if k' == k then (k, v) :: rest else (k', v') :: pySet rest k v

/-! ### Python string helpers

The embedded code uses `str.strip`, `str.split()`, `str.lower`, `str.split(sep)`,
`int(...)`, `urllib.parse.quote` and `fuzzywuzzy.fuzz.ratio`.  They are
re-implemented here structurally (over `List Char`) so that the kernel can
evaluate them on concrete inputs.  Unicode-only niceties (non-ASCII case
folding, exotic whitespace) are modelled at ASCII level. -/

/-- Whitespace characters recognised by Python's `str.strip`/`str.split()`. -/
def isWs (c : Char) : Bool :=
  c = ' ' ∨ c = '\t' ∨ c = '\n' ∨ c = '\r' ∨ c = '\x0c' ∨ c = '\x0b'

/-- Python `s.strip()`. -/
def pyStrip (s : String) : String :=
  ⟨((s.data.dropWhile isWs).reverse.dropWhile isWs).reverse⟩

/-- Python `s.lower()` (ASCII case folding). -/
def charLower (c : Char) : Char :=
  if 'A' ≤ c ∧ c ≤ 'Z' then Char.ofNat (c.toNat + 32) else c

def pyLower (s : String) : String := ⟨s.data.map charLower⟩

def splitWsAux : List Char → List Char → List String
  | [], acc => if acc.isEmpty then [] else [⟨acc.reverse⟩]
  | c :: cs, acc =>
    if isWs c then
      if acc.isEmpty then splitWsAux cs [] else ⟨acc.reverse⟩ :: splitWsAux cs []
    else splitWsAux cs (c :: acc)

/-- Python `s.split()` (split on whitespace runs, no empty pieces). -/
def pySplitWs (s : String) : List String := splitWsAux s.data []

/-- Python `' '.join(l)`. -/
def joinSp : List String → String
  | [] => ""
  | [x] => x
  | x :: xs => x ++ " " ++ joinSp xs

/-- Substring test (Python `sub in s`). -/
def strContains (s sub : String) : Bool :=
  (List.range (s.data.length + 1)).any (fun i => sub.data.isPrefixOf (s.data.drop i))

def splitOnFuel (sep : List Char) : Nat → List Char → List Char → List String
  | 0, cs, acc => [⟨acc.reverse ++ cs⟩]
  | fuel + 1, cs, acc =>
    match cs with
    | [] => [⟨acc.reverse⟩]
    | c :: cs' =>
      if sep.isPrefixOf cs then
        ⟨acc.reverse⟩ :: splitOnFuel sep fuel (cs.drop sep.length) []
      else splitOnFuel sep fuel cs' (c :: acc)

/-- Python `s.split(sep)` for a non-empty separator (leftmost, non-overlapping). -/
def pySplitOn (s sep : String) : List String :=
  if sep.data.isEmpty then [s]
  else splitOnFuel sep.data (s.data.length + 1) s.data []

def pyIntOfDigits : List Char → Option Nat
  | [] => Option.none
  | cs => cs.foldl (fun acc c =>
      match acc with
      | Option.none => Option.none
      | Option.some n => if c.isDigit then Option.some (n * 10 + (c.toNat - 48)) else Option.none)
      (Option.some 0)

/-- Python `int(s)` for decimal strings: optional surrounding whitespace,
optional sign, at least one digit; anything else raises (`Option.none`). -/
def pyInt? (s : String) : Option Int :=
  match (pyStrip s).data with
  | '-' :: rest => (pyIntOfDigits rest).map (fun n => -(n : Int))
  | '+' :: rest => (pyIntOfDigits rest).map (fun n => (n : Int))
  | cs => (pyIntOfDigits cs).map (fun n => (n : Int))

/-- UTF-8 encoding of a character sequence, byte values as `Nat`. -/
def utf8Bytes : List Char → List Nat
  | [] => []
  | c :: cs =>
    let n := c.toNat
    (if n < 0x80 then [n]
     else if n < 0x800 then [0xC0 + n / 64, 0x80 + n % 64]
     else if n < 0x10000 then [0xE0 + n / 4096, 0x80 + (n / 64) % 64, 0x80 + n % 64]
     else [0xF0 + n / 262144, 0x80 + (n / 4096) % 64, 0x80 + (n / 64) % 64, 0x80 + n % 64])
      ++ utf8Bytes cs

def hexDigit (n : Nat) : Char := if n < 10 then Char.ofNat (48 + n) else Char.ofNat (55 + n)

/-- Extra characters passed via `safe=` in `arxiv_client.py` line 87. -/
def arxivSafeChars : List Char := [':', '"', '(', ')', '[', ']', '+', '-']

def quoteByte (b : Nat) : List Char :=
  let c := Char.ofNat b
  if b < 128 && (c.isAlphanum || c ∈ ['_', '.', '-', '~'] || c ∈ arxivSafeChars) then [c]
  else ['%', hexDigit (b / 16), hexDigit (b % 16)]

/-- Models `urllib.parse.quote(s, safe=':"()[]+-')`: percent-encode the UTF-8
bytes, keeping alphanumerics, `_.-~` (always safe) and the given safe set. -/
def pyQuote (s : String) : String := ⟨(utf8Bytes s.data).flatMap quoteByte⟩

/-! ### fuzz.ratio

`semantic_scholar_client.py` line 357 calls `fuzzywuzzy.fuzz.ratio`, which is
`round(100 * (lensum - ldist) / lensum)` where `ldist` is the edit distance
with substitutions costing 2; that distance equals `lensum - 2 * lcs`, so the
ratio is `round(200 * lcs / lensum)` (Python `round` is half-to-even). -/

def lcsNextRowGo (c : Char) : List Char → List Nat → Nat → Nat → List Nat
  | [], _, _, _ => []
  | tc :: ts, prev, diag, left =>
    let up := prev.headD 0
    let cur := if c = tc then diag + 1 else max left up
    cur :: lcsNextRowGo c ts prev.tail up cur

def lcsNextRow (c : Char) (t : List Char) (prev : List Nat) : List Nat :=
  0 :: lcsNextRowGo c t prev.tail (prev.headD 0) 0

/-- Length of a longest common subsequence (row-by-row dynamic program). -/
def lcsLen (s t : List Char) : Nat :=
  (s.foldl (fun row c => lcsNextRow c t row) (List.replicate (t.length + 1) 0)).getLastD 0

def roundHalfEven (num den : Nat) : Nat :=
  let q := num / den
  let r := num % den
  if 2 * r < den then q
  else if 2 * r > den then q + 1
  else if q % 2 = 0 then q else q + 1

/-- Models `fuzz.ratio(a, b)` (0–100 similarity score). -/
def fuzzRatio (a b : String) : Nat :=
  let la := a.data.length
  let lb := b.data.length
  if la + lb = 0 then 100
  else roundHalfEven (200 * lcsLen a.data b.data) (la + lb)

/-! ### Filters

The `filters` mapping passed to every `search_papers`.  Only the keys the
embedded code reads are modelled, with the value types the code assumes for
them (`Option.none` = key absent). -/

structure Filters where
  sources : Option (List String) := Option.none
  year_range : Option (Int × Int) := Option.none
  papers_limit : Option Int := Option.none
  limit : Option Int := Option.none
  min_citation_count : Option Int := Option.none
  jcr_quartile : Option (List String) := Option.none
  cas_quartile : Option (List String) := Option.none

/-- HTTP exchange outcome seen by a client: a status code with a (pre-parsed)
body, or a transport-level error (`aiohttp.ClientError` / connection failure). -/
inductive NetResult (β : Type) where
  | status (code : Nat) (body : β)
  | netError

/-! ### arXiv client (`src/utils/arxiv_client.py`) -/

/-- Client object state (`ArxivClient.__init__`); `_build_search_query` is a
method on it but reads none of these fields. -/
structure ArxivClient where
  request_interval : Nat := 3
  last_request_time : Nat := 0

/-- Tokens whose presence switches `_build_search_query` to pass-through mode
(line 53). -/
def advTokens : List String := ["ti:", "abs:", "au:", "cat:", "AND", "OR", "ANDNOT"]

/-- Embeds `ArxivClient._build_search_query` (lines 38–89). -/
def ArxivClient.buildSearchQuery (_c : ArxivClient) (query : String) (filters : Filters) : String :=
  let query := pyStrip query
  let searchQuery :=
    if advTokens.any (fun t => strContains query t) then
      -- force boolean operators to upper case (the loop on lines 55–56)
      ((query.replace " and " " AND ").replace " or " " OR ").replace " andnot " " ANDNOT "
    else
      let terms := pySplitWs query
      if terms.length = 1 then
        "(ti:" ++ terms.headD "" ++ " OR abs:" ++ terms.headD "" ++ ")"
      else
        let phrase := joinSp terms
        "(ti:\"" ++ phrase ++ "\" OR abs:\"" ++ phrase ++ "\")"
  let searchQuery :=
    match filters.year_range with
    | Option.some (s, e) =>
      if s ≠ 0 ∧ e ≠ 0 ∧ s ≤ e then
        searchQuery ++ " AND submittedDate:[" ++ toString s ++ "01010000 TO "
          ++ toString e ++ "12312359]"
      else searchQuery
    | Option.none => searchQuery
  pyQuote searchQuery

/-- One `<author>` element of an arXiv Atom entry: element presence on the
outside, the element's text (possibly empty, i.e. `None`) on the inside. -/
structure AtomAuthor where
  nameElem : Option (Option String)
  affElem : Option (Option String)

/-- One `<entry>` of the arXiv Atom feed, as `_parse_response` reads it.
`Option (Option String)` is element presence outside, element text inside
(ElementTree gives `None` text for empty elements). `links` carries the
`title` and `href` attributes of each `<link>`. -/
structure AtomEntry where
  idElem : Option (Option String)
  titleElem : Option (Option String)
  summaryElem : Option (Option String)
  links : List (Option String × Option String)
  authors : List AtomAuthor
  publishedElem : Option (Option String)
  primaryCategoryTerm : Option (Option String)

/-- The wire body of an arXiv response: unparseable XML or a feed of entries. -/
inductive ArxivBody where
  | malformed
  | feed (entries : List AtomEntry)

/-- Suffix of `s` after the final piece of `s.split(sep)` — i.e. Python
`s.split(sep)[-1]` (`sep` non-empty; the split list is never empty). -/
def splitLastPiece (s sep : String) : String := (pySplitOn s sep).getLastD ""

/-- Embeds the per-entry body of `ArxivClient._parse_response` (lines 188–232):
`Option.none` is the per-entry `except` path (a malformed entry is skipped).
An entry fails when `atom:id`, `atom:title` or `atom:summary` is missing or
has no text, when an author lacks an `atom:name` element, or when the
`published` text's first four characters are not an integer. -/
def parseAtomEntry (e : AtomEntry) : Option Record := do
  let idE ← e.idElem
  let idText ← idE
  let titleE ← e.titleElem
  let titleText ← titleE
  let sumE ← e.summaryElem
  let sumText ← sumE
  let pdfUrl : Option String :=
    match e.links.find? (fun l => l.1 == Option.some "pdf") with
    | Option.some l => l.2
    | Option.none => Option.none
  let authors ← e.authors.mapM (fun a => do
    let nameE ← a.nameElem
    let nameVal : PyVal := match nameE with
      | Option.some s => .str s
      | Option.none => .none
    let affVal : PyVal := match a.affElem with
      | Option.some (Option.some s) => .str s
      | _ => .none
    pure (PyVal.dict [("name", nameVal), ("affiliation", affVal)]))
  let base : Record :=
    [("id", .str (splitLastPiece idText "abs/")),
     ("title", .str (pyStrip titleText)),
     ("abstract", .str (pyStrip sumText)),
     ("url", .str idText),
     ("pdf_url", match pdfUrl with | Option.some s => .str s | Option.none => .none),
     ("authors", .list authors),
     ("journal_info", .dict
       [("title", .str "arXiv"), ("impact_factor", .str "N/A"),
        ("jcr_quartile", .str "N/A"), ("cas_quartile", .str "N/A")])]
  let withYear ← match e.publishedElem with
    | Option.none => pure base
    | Option.some txtOpt => do
      let txt ← txtOpt
      let y ← pyInt? ⟨txt.data.take 4⟩
      pure (base ++ [("year", PyVal.int y)])
  pure (match e.primaryCategoryTerm with
    | Option.none => withYear
    | Option.some term =>
      withYear ++ [("primary_category",
        match term with | Option.some s => PyVal.str s | Option.none => PyVal.none)])

/-- Embeds `ArxivClient._parse_response` (lines 175–242). -/
def arxivParseResponse : ArxivBody → List Record
  | .malformed => []
  | .feed es => es.filterMap parseAtomEntry

/-- The query parameters of one arXiv API request (line 108); `start`,
`sortBy` and `sortOrder` are constants and omitted. -/
structure ArxivRequest where
  searchQuery : String
  maxResults : Int
  deriving Repr, DecidableEq

/-- Embeds the `while retry_count < max_retries` loop of
`ArxivClient.search_papers` (lines 130–169).  `fuel = max_retries -
retry_count`; the result is the list of requests issued and the Python return
value, where `Option.none` is Python's implicit `None`: when retries are
exhausted by 429s the loop is left with no `return` statement. -/
def arxivLoop (server : Nat → NetResult ArxivBody) (req : ArxivRequest) :
    Nat → Nat → List ArxivRequest × Option (List Record)
  | _, 0 => ([], Option.none)
  | attempt, fuel + 1 =>
    match server attempt with
    | .status code body =>
      if code = 200 then ([req], Option.some (arxivParseResponse body))
      else if code = 400 then ([req], Option.some [])
      else if code = 429 then
        let (rs, res) := arxivLoop server req (attempt + 1) fuel
        (req :: rs, res)
      else ([req], Option.some [])
    | .netError =>
      if fuel = 0 then ([req], Option.some [])
      else
        let (rs, res) := arxivLoop server req (attempt + 1) fuel
        (req :: rs, res)

/-- Embeds `ArxivClient.search_papers` (lines 91–173).  The server oracle maps
the attempt number to that attempt's response.  Returns the requests issued
and the Python return value (`Option.none` = the function returned `None`). -/
def arxivSearchPapers (c : ArxivClient) (query : String) (filters : Filters)
    (server : Nat → NetResult ArxivBody) : List ArxivRequest × Option (List Record) :=
  if pyStrip query = "" then ([], Option.some [])
  else
    let sq := c.buildSearchQuery query filters
    let req : ArxivRequest := ⟨sq, min (filters.papers_limit.getD 100) 100⟩
    arxivLoop server req 0 3

/-! ### PubMed client (`src/utils/pubmed_client.py`) -/

/-- One `<Author>` element (element presence of `LastName`/`ForeName`;
BeautifulSoup's `.text` of a present element is always a string). -/
structure PubmedAuthor where
  lastName : Option String
  foreName : Option String

/-- One `<PubmedArticle>` as `_parse_papers_details` reads it.  Outer `Option`
is element presence; for `Journal`/`PubDate` the inner `Option` is presence of
the nested `Title`/`Year` element. -/
structure PubmedArticle where
  pmid : Option String
  articleTitle : Option String
  abstract : Option String
  authorList : Option (List PubmedAuthor)
  journalTitle : Option (Option String)
  pubDateYear : Option (Option String)

/-- Wire body of an efetch response. -/
inductive PubmedBody where
  | malformed
  | articles (l : List PubmedArticle)

/-- Embeds the per-article body of `PubMedClient._parse_papers_details`
(lines 149–202).  `Option.none` is the per-article `except` path, reached
exactly when `int(year.text)` raises. -/
def parsePubmedArticle (a : PubmedArticle) : Option Record :=
  let idVal : PyVal := match a.pmid with
    | Option.some s => .str s
    | Option.none => .none
  let urlVal : PyVal := match a.pmid with
    | Option.some s =>
      if s ≠ "" then .str ("https://pubmed.ncbi.nlm.nih.gov/" ++ s ++ "/") else .none
    | Option.none => .none
  let authors : List PyVal := match a.authorList with
    | Option.some l => l.filterMap (fun au =>
      match au.lastName, au.foreName with
      | Option.some ln, Option.some fn =>
        Option.some (PyVal.dict [("name", .str (ln ++ " " ++ fn)), ("affiliation", .none)])
      | _, _ => Option.none)
    | Option.none => []
  let journalInfoTitle : PyVal := match a.journalTitle with
    | Option.some (Option.some t) => .str t
    | _ => .none
  let base : Record :=
    [("id", idVal),
     ("title", .str (a.articleTitle.getD "No title available")),
     ("abstract", .str (a.abstract.getD "No abstract available")),
     ("url", urlVal),
     ("pdf_url", .none),
     ("authors", .list authors),
     ("journal_info", .dict
       [("title", journalInfoTitle), ("impact_factor", .str "N/A"),
        ("jcr_quartile", .str "N/A"), ("cas_quartile", .str "N/A")])]
  match a.pubDateYear with
  | Option.some (Option.some ytext) =>
    match pyInt? ytext with
    | Option.some y => Option.some (base ++ [("year", PyVal.int y)])
    | Option.none => Option.none
  | _ => Option.some base

/-- Embeds `PubMedClient._parse_papers_details` over a whole body. -/
def pubmedParseDetails : PubmedBody → List Record
  | .malformed => []
  | .articles l => l.filterMap parsePubmedArticle

/-- The two kinds of PubMed requests; the constant `db`/`retmode`/`api_key`
parameters are the same on every request and omitted. -/
inductive PubmedRequest where
  | esearch (term : String) (retmax : Int)
  | efetch (ids : List String)
  deriving Repr, DecidableEq

/-- Server oracle for one PubMed search: the esearch response (body already
reduced to the `<Id>` texts that `_parse_search_response` extracts) and the
efetch response. -/
structure PubmedServer where
  esearchResp : NetResult (List String)
  efetchResp : NetResult PubmedBody

/-- Embeds `PubMedClient.search_papers` (lines 38–95) together with
`_fetch_papers_details` (lines 112–141).  Note: unlike the arXiv client there
is no empty-query check — the esearch request is issued for every query. -/
def pubmedSearchPapers (query : String) (filters : Filters) (srv : PubmedServer) :
    List PubmedRequest × List Record :=
  let term := query ++
    (match filters.year_range with
     | Option.some (s, e) =>
       if s ≠ 0 ∧ e ≠ 0 then " AND " ++ toString s ++ ":" ++ toString e ++ "[dp]" else ""
     | Option.none => "")
  let req1 := PubmedRequest.esearch term (min (filters.papers_limit.getD 100) 100)
  match srv.esearchResp with
  | .netError => ([req1], [])
  | .status code ids =>
    if code = 200 then
      if ids.isEmpty then ([req1], [])
      else
        let req2 := PubmedRequest.efetch ids
        match srv.efetchResp with
        | .netError => ([req1, req2], [])
        | .status code2 body =>
          if code2 = 200 then ([req1, req2], pubmedParseDetails body)
          else ([req1, req2], [])
    else ([req1], [])

/-! ### Semantic Scholar client (`src/utils/semantic_scholar_client.py`)

The class body defines `get_journal_metrics` twice (lines 316 and 711) and
`search_papers` twice (lines 134 and 489).  In a Python class body the later
`def` rebinds the name, so the second `get_journal_metrics` (exact
case-insensitive title match) and the `async def search_papers` are the
methods the class actually has; the first definitions are dead code but are
embedded too (`getJournalMetricsShadowed`, `ssSyncSearchPapers`) since the
async manager path never calls them but the spec describes them. -/

/-- One entry of `self.journal_data` as built by
`src/utils/journal_data.py` (`load_journal_data`): the `'title'` key is always
set; the metric keys are read back with `.get(..., 'N/A')`, modelled with
`Option`. -/
structure JournalInfo where
  title : String
  impactFactor : Option String
  jcrQuartile : Option String
  casQuartile : Option String

/-- `journal_data`: insertion-ordered dict from ISSN/eISSN to entry. -/
abbrev JournalData := List (String × JournalInfo)

structure Metrics where
  impact_factor : String
  jcr_quartile : String
  cas_quartile : String
  deriving Repr, DecidableEq

/-- Embeds `_get_default_metrics` (lines 740–751). -/
def defaultMetrics : Metrics := ⟨"N/A", "N/A", "N/A"⟩

/-- Embeds the EFFECTIVE `get_journal_metrics` — the second definition
(lines 711–738), which shadows the first: scan the table in insertion order
and return the metrics of the first entry whose title equals the venue name
case-insensitively; otherwise the defaults. -/
def getJournalMetrics (jd : JournalData) (journalName : String) : Metrics :=
  if journalName == "" || jd.isEmpty then defaultMetrics
  else
    match (jd.map Prod.snd).find? (fun ji => pyLower ji.title == pyLower journalName) with
    | Option.some ji =>
      ⟨ji.impactFactor.getD "N/A", ji.jcrQuartile.getD "N/A", ji.casQuartile.getD "N/A"⟩
    | Option.none => defaultMetrics

/-- Embeds `normalize_journal_name` (lines 323–332): lower-case, drop
characters that are neither word characters nor whitespace, collapse
whitespace. -/
def normalizeJournalName (name : String) : String :=
  if name = "" then ""
  else joinSp (pySplitWs ⟨(pyLower name).data.filter
    (fun c => c.isAlphanum ∨ c = '_' ∨ isWs c)⟩)

/-- The `skip_sources` set of the first `get_journal_metrics` (lines 337–344). -/
def skipSources : List String :=
  ["arxiv", "unknown", "conference", "symposium", "proceedings", "dissertation"]

/-- Embeds the SHADOWED first `get_journal_metrics` (lines 316–382): normalize,
reject non-journal venues, then fuzzy-match every table entry and accept the
best ratio when it strictly exceeds 85 (first entry wins ties, since the fold
requires a strict improvement); a digit-only CAS quartile gains a `B` prefix. -/
def getJournalMetricsShadowed (jd : JournalData) (journalName : String) : Metrics :=
  if journalName == "" || jd.isEmpty then defaultMetrics
  else
    let name := normalizeJournalName journalName
    if skipSources.any (fun t => strContains name t) then defaultMetrics
    else
      let best := jd.foldl (fun (acc : Option JournalInfo × Nat) p =>
        let r := fuzzRatio name (normalizeJournalName p.2.title)
        if r > 85 ∧ r > acc.2 then (Option.some p.2, r) else acc)
        (Option.none, 0)
      match best.1 with
      | Option.some ji =>
        let cas := ji.casQuartile.getD "N/A"
        let cas := if cas ≠ "" ∧ cas.data.all Char.isDigit then "B" ++ cas else cas
        ⟨ji.impactFactor.getD "N/A", ji.jcrQuartile.getD "N/A", cas⟩
      | Option.none => defaultMetrics

/-- One element of a paper's `authors` JSON array: `isDict` records whether it
is a JSON object; `name` is the Python value of `author.get('name')` (absent
key and JSON `null` both give `None`). -/
structure SSAuthor where
  isDict : Bool
  name : Option String

/-- One element of the JSON `data` array.  Fields read through
`paper.get(k, d)` with a non-`None` default distinguish an absent key (outer
`Option.none`, the default applies) from an explicit JSON `null` (inner
`Option.none`, which `.get` returns as `None`); fields whose default is `None`
collapse both to one `Option`.  `authors = Option.none` models JSON `null`
(iterating it raises, skipping the paper); an absent `authors` key is
`Option.some []`.  `venue`/`pubVenueName`/`pdfUrl` collapse the
`(... or {}).get(...)` chains of lines 549–551 and 573. -/
structure SSPaper where
  paperId : Option (Option String)
  title : Option (Option String)
  abstract : Option (Option String)
  year : Option Int
  citationCount : Option (Option Int)
  authors : Option (List SSAuthor)
  venue : Option String
  pubVenueName : Option String
  pdfUrl : Option String

/-- Python value of `paper.get(k, dflt)` for a string field with a string
default. -/
def getDStr (v : Option (Option String)) (dflt : String) : PyVal :=
  match v with
  | Option.none => .str dflt
  | Option.some Option.none => .none
  | Option.some (Option.some s) => .str s

/-- Python `f"...{v}"` of an optional string (`None` renders as `"None"`). -/
def pyStrOfOpt : Option String → String
  | Option.some s => s
  | Option.none => "None"

/-- Embeds `SemanticScholarClient._apply_filters` (lines 667–709).  The
`except` path (mismatched types, missing `journal_info` keys) returns
`False`, matching each catch-all branch below. -/
def ssApplyFilters (paper : Record) (f : Filters) : Bool :=
  let yearOk :=
    match f.year_range with
    | Option.some (s, e) =>
      if s ≠ 0 ∧ e ≠ 0 then
        match pyGet paper "year" with
        | Option.some (.int y) => y ≠ 0 ∧ s ≤ y ∧ y ≤ e
        | _ => false
      else true
    | Option.none => true
  let citeOk :=
    match f.min_citation_count with
    | Option.some m =>
      match (pyGet paper "citationCount").getD (.int 0) with
      | .int n => m ≤ n
      | _ => false
    | Option.none => true
  let quartileOk (key : String) (allowed : Option (List String)) : Bool :=
    match allowed with
    | Option.some l =>
      if l ≠ [] then
        match pyGet paper "journal_info" with
        | Option.some (.dict ji) =>
          match pyGet ji key with
          | Option.some (.str q) => q ∈ l
          | _ => false
        | _ => false
      else true
    | Option.none => true
  yearOk && citeOk && quartileOk "jcr_quartile" f.jcr_quartile
    && quartileOk "cas_quartile" f.cas_quartile

/-- Embeds the per-paper processing of the async `search_papers`
(lines 546–588), including its `_apply_filters` gate; `Option.none` covers
both the per-paper `except` path (only reachable through a JSON-`null`
`authors`) and a paper rejected by the filters. -/
def ssProcessPaper (jd : JournalData) (filters : Filters) (p : SSPaper) : Option Record := do
  let venueName :=
    match p.venue with
    | Option.some s =>
      if s ≠ "" then s
      else match p.pubVenueName with
        | Option.some v => if v ≠ "" then v else "Unknown"
        | Option.none => "Unknown"
    | Option.none =>
      match p.pubVenueName with
      | Option.some v => if v ≠ "" then v else "Unknown"
      | Option.none => "Unknown"
  let metrics := getJournalMetrics jd venueName
  let auths ← p.authors
  let authorRecs := auths.filterMap (fun a =>
    if a.isDict then
      match a.name with
      | Option.some s => if s ≠ "" then Option.some (PyVal.dict [("name", .str s)]) else Option.none
      | Option.none => Option.none
    else Option.none)
  let idForUrl := match p.paperId with
    | Option.none => ""
    | Option.some v => pyStrOfOpt v
  let processed : Record :=
    [("id", getDStr p.paperId ""),
     ("title", getDStr p.title ""),
     ("abstract", getDStr p.abstract ""),
     ("year", match p.year with | Option.some y => .int y | Option.none => .none),
     ("citationCount", match p.citationCount with
       | Option.none => .int 0
       | Option.some Option.none => .none
       | Option.some (Option.some n) => .int n),
     ("authors", .list authorRecs),
     ("url", .str ("https://www.semanticscholar.org/paper/" ++ idForUrl)),
     ("pdf_url", match p.pdfUrl with | Option.some s => .str s | Option.none => .none),
     ("journal_info", .dict
       [("title", .str venueName), ("impact_factor", .str metrics.impact_factor),
        ("jcr_quartile", .str metrics.jcr_quartile),
        ("cas_quartile", .str metrics.cas_quartile)])]
  if ssApplyFilters processed filters then pure processed else Option.none

/-- The query parameters of one async Semantic Scholar search request
(lines 505–519). -/
structure SSRequest where
  query : String
  fields : String
  limit : Int
  year : Option String
  minCitationCount : Option Int
  deriving Repr, DecidableEq

def ssFieldsParam : String :=
  "paperId,title,abstract,year,citationCount,authors,venue,publicationVenue,openAccessPdf"

/-- Embeds the `while retry_count < max_retries` loop of the async
`search_papers` (lines 524–611).  `fuel = max_retries - retry_count`; unlike
the arXiv loop, falling off this loop hits the explicit `return []` on
line 611, and a non-200/非-429 status retries until the check
`retry_count >= max_retries - 1` returns `[]`. -/
def ssLoop (jd : JournalData) (filters : Filters) (server : Nat → NetResult (List SSPaper))
    (req : SSRequest) : Nat → Nat → List SSRequest × List Record
  | _, 0 => ([], [])
  | attempt, fuel + 1 =>
    match server attempt with
    | .status code body =>
      if code = 429 then
        (req :: (ssLoop jd filters server req (attempt + 1) fuel).1,
         (ssLoop jd filters server req (attempt + 1) fuel).2)
      else if code = 200 then
        ([req], body.filterMap (ssProcessPaper jd filters))
      else if fuel = 0 then ([req], [])
      else
        (req :: (ssLoop jd filters server req (attempt + 1) fuel).1,
         (ssLoop jd filters server req (attempt + 1) fuel).2)
    | .netError =>
      if fuel = 0 then ([req], [])
      else
        (req :: (ssLoop jd filters server req (attempt + 1) fuel).1,
         (ssLoop jd filters server req (attempt + 1) fuel).2)

/-- Embeds the EFFECTIVE (async) `SemanticScholarClient.search_papers`
(lines 489–615); `jd` is the client's `journal_data`.  Note: no empty-query
check — the request is issued for every query. -/
def ssSearchPapers (jd : JournalData) (query : String) (filters : Filters)
    (server : Nat → NetResult (List SSPaper)) : List SSRequest × List Record :=
  let req : SSRequest :=
    { query := query
      fields := ssFieldsParam
      limit := min (filters.limit.getD 100) 100
      year := match filters.year_range with
        | Option.some (s, e) =>
          if s ≠ 0 ∧ e ≠ 0 then Option.some (toString s ++ "-" ++ toString e) else Option.none
        | Option.none => Option.none
      minCitationCount := filters.min_citation_count }
  ssLoop jd filters server req 0 3

/-! #### Synchronous (shadowed) Semantic Scholar path -/

/-- Response seen by `_make_request`'s `session.request` call: a status code
with the decoded JSON body (reduced to the `data` array that the sync
`search_papers` reads; an absent `data` key is the empty list), or a
transport-level `requests` exception. -/
inductive SyncResp where
  | status (code : Nat) (body : List SSPaper)
  | reqError

/-- Model of `str(e)` for the `HTTPError` that `raise_for_status` raises. -/
def httpErrorStr (code : Nat) : String := toString code ++ " Error"

/-- The `error_msg` rewriting of `_make_request` (lines 115–124) for a
non-retried HTTP error status. -/
def syncErrMsg (code : Nat) : String :=
  if code = 400 then "搜索请求无效: " ++ httpErrorStr code
  else if code = 403 then "API 访问受限，请检查 API 密钥"
  else if 500 ≤ code then "Semantic Scholar 服务器错误，请稍后再试"
  else httpErrorStr code

/-- Embeds `SemanticScholarClient._make_request` (lines 55–132) as its
`while retry_count < max_retries` loop.  Each issued attempt number is
recorded.  `Except.ok Option.none` is the implicit `None` returned when the
loop is exhausted by 429s (the 429 branch `continue`s before
`raise_for_status`); `Except.error` is the `raise Exception(error_msg)` after
the retry budget is spent on raising statuses; `raise_for_status` raises
exactly for 4xx/5xx. -/
def ssMakeRequest (server : Nat → SyncResp) :
    Nat → Nat → List Nat × Except String (Option (List SSPaper))
  | _, 0 => ([], .ok Option.none)
  | attempt, fuel + 1 =>
    match server attempt with
    | .status code body =>
      if code = 429 then
        let (rs, r) := ssMakeRequest server (attempt + 1) fuel
        (attempt :: rs, r)
      else if 400 ≤ code ∧ code < 600 then
        if fuel = 0 then ([attempt], .error (syncErrMsg code))
        else
          let (rs, r) := ssMakeRequest server (attempt + 1) fuel
          (attempt :: rs, r)
      else ([attempt], .ok (Option.some body))
    | .reqError =>
      if fuel = 0 then ([attempt], .error "Connection error")
      else
        let (rs, r) := ssMakeRequest server (attempt + 1) fuel
        (attempt :: rs, r)

/-- Python `s.encode('ascii', 'ignore').decode()`. -/
def asciiIgnore (s : String) : String := ⟨s.data.filter (fun c => c.toNat < 128)⟩

/-- Per-paper processing of the SHADOWED sync `search_papers`
(lines 254–308): like the async one but author names are ASCII-filtered, the
key order differs, and there is no `_apply_filters` gate. -/
def ssSyncProcessPaper (jd : JournalData) (p : SSPaper) : Option Record := do
  let venueName :=
    match p.venue with
    | Option.some s =>
      if s ≠ "" then s
      else match p.pubVenueName with
        | Option.some v => if v ≠ "" then v else "Unknown"
        | Option.none => "Unknown"
    | Option.none =>
      match p.pubVenueName with
      | Option.some v => if v ≠ "" then v else "Unknown"
      | Option.none => "Unknown"
  let metrics := getJournalMetrics jd venueName
  let auths ← p.authors
  let authorRecs := auths.filterMap (fun a =>
    if a.isDict then
      match a.name with
      | Option.some s =>
        if s ≠ "" then Option.some (PyVal.dict [("name", .str (asciiIgnore s))]) else Option.none
      | Option.none => Option.none
    else Option.none)
  let idForUrl := match p.paperId with
    | Option.none => ""
    | Option.some v => pyStrOfOpt v
  pure
    [("id", getDStr p.paperId ""),
     ("title", getDStr p.title ""),
     ("url", .str ("https://www.semanticscholar.org/paper/" ++ idForUrl)),
     ("abstract", getDStr p.abstract ""),
     ("year", match p.year with | Option.some y => PyVal.int y | Option.none => PyVal.none),
     ("citationCount", match p.citationCount with
       | Option.none => PyVal.int 0
       | Option.some Option.none => PyVal.none
       | Option.some (Option.some n) => PyVal.int n),
     ("authors", PyVal.list authorRecs),
     ("pdf_url", match p.pdfUrl with | Option.some s => PyVal.str s | Option.none => PyVal.none),
     ("journal_info", PyVal.dict
       [("title", .str venueName), ("impact_factor", .str metrics.impact_factor),
        ("jcr_quartile", .str metrics.jcr_quartile),
        ("cas_quartile", .str metrics.cas_quartile)])]

/-- The `str(e)` of the `AttributeError` raised by `None.get('data', [])`
when `_make_request` fell off its loop and returned `None` (CPython text). -/
def noneGetMsg : String := "'NoneType' object has no attribute 'get'"

/-- Embeds the SHADOWED sync `SemanticScholarClient.search_papers`
(lines 134–314), keeping the `query` and `year_range` arguments (the other
keyword arguments only extend the outgoing parameters, which no claim about
this path inspects).  The result is the attempt numbers issued and either the
processed papers or the `raise Exception(f"Semantic Scholar API 搜索失败:
{str(e)}")` of line 314. -/
def ssSyncSearchPapers (jd : JournalData) (query : String)
    (yearRange : Option (Int × Int)) (server : Nat → SyncResp) :
    List Nat × Except String (List Record) :=
  let _q := pyStrip query
  match ssMakeRequest server 0 3 with
  | (rs, .error e) => (rs, .error ("Semantic Scholar API 搜索失败: " ++ e))
  | (rs, .ok Option.none) =>
    (rs, .error ("Semantic Scholar API 搜索失败: " ++ noneGetMsg))
  | (rs, .ok (Option.some data)) =>
    let papers :=
      match yearRange with
      | Option.some (s, e) =>
        data.filter (fun (p : SSPaper) =>
          match p.year with
          | Option.some y => y ≠ 0 ∧ s ≤ y ∧ y ≤ e
          | Option.none => false)
      | Option.none => data
    (rs, .ok (papers.filterMap (ssSyncProcessPaper jd)))

/-! ### Source manager (`src/utils/paper_source_manager.py`) -/

/-- A registered client's `search_papers`, as the manager observes it: for a
given `(query, filters)` it either raises (`Except.error`) or returns a Python
value that is `None` (`Except.ok Option.none` — possible, since the arXiv
client can return `None`; `len(None)` then raises inside the manager's `try`)
or a list of records. -/
def ClientBehavior := String → Filters → Except String (Option (List Record))

/-- The manager's `self.sources` dict (name → client). -/
abbrev Registry := List (String × ClientBehavior)

def lookupReg (reg : Registry) (name : String) : Option ClientBehavior :=
  (reg.find? (fun p => p.1 == name)).map (fun p => p.2)

/-- What a source contributes inside the manager's `try`: a raising client, or
one whose return value makes `len(papers)`/iteration raise (`None`), is caught
by the `except` and contributes nothing. -/
def contribution : Except String (Option (List Record)) → List Record
  | .ok (Option.some ps) => ps
  | _ => []

/-- Embeds the dedupe loop (lines 72–77) for one source's papers: thread the
`(all_papers, seen_paper_ids)` state through the `for paper in papers` loop; a
paper is appended (tagged with its source) iff its `id` value is truthy and
unseen. -/
def dedupeSource (srcName : String) : List Record → List Record × List PyVal → List Record × List PyVal
  | [], st => st
  | paper :: rest, st =>
    dedupeSource srcName rest
      (match pyGet paper "id" with
       | Option.some pid =>
         if truthy pid && !pyMem pid st.2 then
           (st.1 ++ [pySet paper "source" (.str srcName)], pid :: st.2)
         else st
       | Option.none => st)

/-- The per-source loop of `search_papers_all_sources` (lines 61–80) over the
selected names: skip unregistered names, otherwise record the source as
queried and fold its contribution into the accumulator. -/
def managerGo (reg : Registry) (q : String) (f : Filters) :
    List String → (List Record × List PyVal) → List String × (List Record × List PyVal)
  | [], acc => ([], acc)
  | n :: rest, acc =>
    match lookupReg reg n with
    | Option.none => managerGo reg q f rest acc
    | Option.some b =>
      let acc' := dedupeSource n (contribution (b q f)) acc
      let (qs, accFin) := managerGo reg q f rest acc'
      (n :: qs, accFin)

/-- Embeds `PaperSourceManager.search_papers_all_sources` (lines 51–82).
Returns the names actually dispatched to (in order) and the merged paper
list.  Totality of this function is the embedding of "no exception escapes". -/
def searchPapersAllSources (reg : Registry) (query : String) (filters : Filters) :
    List String × List Record :=
  let selected := filters.sources.getD ["pubmed", "semanticscholar"]
  let (qs, acc) := managerGo reg query filters selected ([], [])
  (qs, acc.1)

/-- The same merge, starting from per-source result lists: fold the dedupe
over `(source name, papers)` pairs in order. -/
def mergeGo : List (String × List Record) → (List Record × List PyVal) → List Record × List PyVal
  | [], acc => acc
  | (n, ps) :: rest, acc => mergeGo rest (dedupeSource n ps acc)

def mergeAllSources (pairs : List (String × List Record)) : List Record :=
  (mergeGo pairs ([], [])).1

/-! ## Claim theorems -/

/-! ### C9: determinism of the arXiv query translation -/

/-- C9: for every `(query, filters)` pair, the arXiv query translation is a
deterministic function of its arguments with no dependence on hidden state:
two calls — even on clients in different rate-limiter states — yield the same
encoded query string. -/
theorem arxiv_translation_deterministic (c c' : ArxivClient) (q : String) (f : Filters) :
    c.buildSearchQuery q f = c'.buildSearchQuery q f := rfl

/-! ### C6: arXiv query translation for plain (non-advanced) queries -/

/-- Claim-side restatement of C6 / spec §4.1, written from the spec's words:
single word → `(ti:<word> OR abs:<word>)`; several words → the exact-phrase
form; a `year_range` with both years truthy and `start <= end` appends the
`submittedDate` clause; the whole string is percent-encoded preserving
`:"()[]+-`. -/
def arxivQueryClaimed (query : String) (f : Filters) : String :=
  let terms := pySplitWs query
  let base :=
    if terms.length = 1 then
      "(ti:" ++ terms.headD "" ++ " OR abs:" ++ terms.headD "" ++ ")"
    else
      "(ti:\"" ++ joinSp terms ++ "\" OR abs:\"" ++ joinSp terms ++ "\")"
  let clause :=
    match f.year_range with
    | Option.some (s, e) =>
      if s ≠ 0 ∧ e ≠ 0 ∧ s ≤ e then
        " AND submittedDate:[" ++ toString s ++ "01010000 TO " ++ toString e ++ "12312359]"
      else ""
    | Option.none => ""
  pyQuote (base ++ clause)

/-- C6: for every non-empty arXiv query that contains none of the recognized
field prefixes (`ti:`, `abs:`, `au:`, `cat:`) or boolean operators (`AND`,
`OR`, `ANDNOT`) as substrings, `_build_search_query` produces exactly the
claimed translation `arxivQueryClaimed` (single-word / exact-phrase form,
optional `submittedDate` clause, percent-encoded with `:"()[]+-` kept). -/
theorem arxiv_query_translation (c : ArxivClient) (q : String) (f : Filters)
    (hne : pyStrip q ≠ "")
    (hplain : advTokens.all (fun t => !strContains (pyStrip q) t) = true) :
    c.buildSearchQuery q f = arxivQueryClaimed (pyStrip q) f := by
  have hany : advTokens.any (fun t => strContains (pyStrip q) t) = false := by
    rw [List.any_eq_false]
    intro t ht
    have := List.all_eq_true.mp hplain t ht
    simpa using this
  unfold ArxivClient.buildSearchQuery arxivQueryClaimed
  simp only [hany, Bool.false_eq_true, if_false]
  rcases hyr : f.year_range with _ | ⟨s, e⟩
  · simp
  · by_cases hc : s ≠ 0 ∧ e ≠ 0 ∧ s ≤ e <;> simp [hc, String.append_assoc]

/-- Witness for C6 at `q = "quantum computing"`,
`year_range = (2020, 2024)`. -/
theorem arxiv_query_translation_witness :
    pyStrip "quantum computing" ≠ "" ∧
    (ArxivClient.mk 3 0).buildSearchQuery "quantum computing"
        { year_range := Option.some (2020, 2024) } =
      arxivQueryClaimed (pyStrip "quantum computing")
        { year_range := Option.some (2020, 2024) } :=
  ⟨by decide,
   arxiv_query_translation ⟨3, 0⟩ "quantum computing"
     { year_range := Option.some (2020, 2024) } (by decide) (by decide)⟩

/-! ### C1: empty-query short-circuit -/

/-- Counterexample to C1: the PubMed client does NOT short-circuit an empty
query — `search_papers("")` issues the esearch network request (with
`term=""`), contradicting "performs no network request ... for every source
client". -/
theorem empty_query_counterexample :
    (pubmedSearchPapers "" {} ⟨.status 200 [], .netError⟩).1 = [.esearch "" 100] ∧
    (pubmedSearchPapers "" {} ⟨.status 200 [], .netError⟩).1 ≠ [] :=
  ⟨rfl, by decide⟩

/-- C1 (amended): only the arXiv client short-circuits an empty/whitespace
query to an empty result with no network request; the PubMed and Semantic
Scholar clients issue at least one request for every query, the empty query
included. -/
theorem empty_query_policy :
    (∀ (c : ArxivClient) (q : String) (f : Filters) (srv : Nat → NetResult ArxivBody),
      pyStrip q = "" → arxivSearchPapers c q f srv = ([], Option.some [])) ∧
    (∀ (q : String) (f : Filters) (srv : PubmedServer),
      (pubmedSearchPapers q f srv).1 ≠ []) ∧
    (∀ (jd : JournalData) (q : String) (f : Filters) (srv : Nat → NetResult (List SSPaper)),
      (ssSearchPapers jd q f srv).1 ≠ []) := by
  refine ⟨?_, ?_, ?_⟩
  · intro c q f srv h
    unfold arxivSearchPapers
    rw [h]
    simp
  · intro q f srv
    unfold pubmedSearchPapers
    rcases srv with ⟨es, ef⟩
    rcases es with ⟨code, ids⟩ | _
    · by_cases h200 : code = 200
      · by_cases hids : ids.isEmpty
        · simp [h200, hids]
        · rcases ef with ⟨code2, body⟩ | _
          · by_cases h2 : code2 = 200 <;> simp [h200, hids, h2]
          · simp [h200, hids]
      · simp [h200]
    · simp
  · intro jd q f srv
    show (ssLoop jd f srv _ 0 3).1 ≠ []
    unfold ssLoop
    rcases srv 0 with ⟨code, body⟩ | _
    · by_cases h429 : code = 429
      · simp [h429]
      · by_cases h200 : code = 200 <;> simp [h429, h200]
    · simp

/-- Witness for C1's amended statement at concrete inputs. -/
theorem empty_query_policy_witness :
    arxivSearchPapers ⟨3, 0⟩ " " {} (fun _ => .status 200 .malformed) = ([], Option.some []) ∧
    (pubmedSearchPapers "x" {} ⟨.netError, .netError⟩).1 ≠ [] ∧
    (ssSearchPapers [] "x" {} (fun _ => .netError)).1 ≠ [] :=
  ⟨empty_query_policy.1 ⟨3, 0⟩ " " {} (fun _ => .status 200 .malformed) rfl,
   empty_query_policy.2.1 "x" {} ⟨.netError, .netError⟩,
   empty_query_policy.2.2 [] "x" {} (fun _ => .netError)⟩

/-! ### C5: behaviour when the server answers HTTP 429 on every attempt -/

/-- C5 (code bug in the arXiv client): with a server answering 429 on every
attempt, each path issues exactly `max_retries = 3` requests, but the arXiv
async path then returns Python `None` — the retry loop is exhausted with no
`return` statement, contradicting the claimed (and type-annotated) empty
list; the Semantic Scholar async path does return `[]`, and the synchronous
path raises `Exception` whose message contains "Semantic Scholar". -/
theorem retry_exhaustion_eval :
    arxivSearchPapers ⟨3, 0⟩ "quantum" {} (fun _ => .status 429 .malformed) =
      ([⟨"(ti:quantum%20OR%20abs:quantum)", 100⟩, ⟨"(ti:quantum%20OR%20abs:quantum)", 100⟩,
        ⟨"(ti:quantum%20OR%20abs:quantum)", 100⟩], Option.none) ∧
    (ssSearchPapers [] "quantum" {} (fun _ => .status 429 [])).1.length = 3 ∧
    (ssSearchPapers [] "quantum" {} (fun _ => .status 429 [])).2 = [] ∧
    ssSyncSearchPapers [] "quantum" Option.none (fun _ => .status 429 []) =
      ([0, 1, 2], .error "Semantic Scholar API 搜索失败: 'NoneType' object has no attribute 'get'") ∧
    strContains "Semantic Scholar API 搜索失败: 'NoneType' object has no attribute 'get'"
      "Semantic Scholar" = true :=
  ⟨rfl, by decide, rfl, rfl, by decide⟩

/-! ### C4: journal-metrics lookup -/

/-- One-entry journal table for the C4 counterexample. -/
def jdNatComm : JournalData :=
  [("2041-1723", ⟨"Nature Communications", Option.some "16.6", Option.some "Q1", Option.some "1"⟩)]

/-- Counterexample to C4: the venue "Nature Communication" normalizes to a
non-empty name containing no rejected substring and fuzzy-matches the table
entry "Nature Communications" with ratio 98 > 85, so the claim demands that
entry's metrics; but the class's EFFECTIVE `get_journal_metrics` (the second
definition, which shadows the fuzzy first one) requires exact
case-insensitive title equality and returns all-"N/A" here.  The shadowed
first definition would have returned `("16.6", "Q1", "B1")`. -/
theorem journal_metrics_fuzzy_counterexample :
    fuzzRatio (normalizeJournalName "Nature Communication")
        (normalizeJournalName "Nature Communications") = 98 ∧
    normalizeJournalName "Nature Communication" ≠ "" ∧
    skipSources.all (fun t => !strContains (normalizeJournalName "Nature Communication") t) = true ∧
    getJournalMetrics jdNatComm "Nature Communication" = defaultMetrics ∧
    getJournalMetricsShadowed jdNatComm "Nature Communication" = ⟨"16.6", "Q1", "B1"⟩ ∧
    defaultMetrics ≠ ⟨"16.6", "Q1", "B1"⟩ :=
  ⟨by decide, by decide, by decide, rfl, rfl, by decide⟩

theorem find?_append_left_none {α : Type} (p : α → Bool) (l1 l2 : List α)
    (h : ∀ x ∈ l1, p x = false) : (l1 ++ l2).find? p = l2.find? p := by
  induction l1 with
  | nil => rfl
  | cons a l ih =>
    have ha := h a (List.mem_cons_self a l)
    simp only [List.cons_append, List.find?]
    rw [ha]
    exact ih (fun x hx => h x (List.mem_cons_of_mem a hx))

/-- C4 (amended): the effective `get_journal_metrics` ignores fuzzy
similarity entirely: for a non-empty venue name it returns the stored metrics
of the first table entry whose title equals the name case-insensitively, and
all-"N/A" metrics when no entry's title is case-insensitively equal — however
high the best similarity ratio is; the `> 85` fuzzy rule lives only in the
shadowed first definition. -/
theorem journal_metrics_exact_match (jd : JournalData) (name : String) :
    ((∀ ji ∈ jd.map Prod.snd, pyLower ji.title ≠ pyLower name) →
      getJournalMetrics jd name = defaultMetrics) ∧
    (∀ pre ji post, name ≠ "" → jd.map Prod.snd = pre ++ ji :: post →
      (∀ j ∈ pre, pyLower j.title ≠ pyLower name) →
      pyLower ji.title = pyLower name →
      getJournalMetrics jd name =
        ⟨ji.impactFactor.getD "N/A", ji.jcrQuartile.getD "N/A", ji.casQuartile.getD "N/A"⟩) := by
  constructor
  · intro h
    unfold getJournalMetrics
    split
    · rfl
    · rw [List.find?_eq_none.mpr (fun ji hji => by simpa using h ji hji)]
  · intro pre ji post hname heq hpre hji
    have hjdne : jd ≠ [] := by
      intro hnil
      rw [hnil] at heq
      exact absurd heq.symm (List.append_ne_nil_of_right_ne_nil pre (by simp))
    unfold getJournalMetrics
    rw [if_neg (by simp [hname, hjdne])]
    rw [heq, find?_append_left_none _ pre _ (fun j hj => by simpa using hpre j hj)]
    simp [List.find?, hji]

/-- Witness for C4's amended statement: no case-insensitive match yields the
defaults; an exact case-insensitive match yields the stored metrics. -/
theorem journal_metrics_exact_match_witness :
    getJournalMetrics jdNatComm "Science" = defaultMetrics ∧
    getJournalMetrics jdNatComm "nature COMMUNICATIONS" = ⟨"16.6", "Q1", "1"⟩ :=
  ⟨(journal_metrics_exact_match jdNatComm "Science").1 (by decide),
   (journal_metrics_exact_match jdNatComm "nature COMMUNICATIONS").2 []
     ⟨"Nature Communications", Option.some "16.6", Option.some "Q1", Option.some "1"⟩ []
     (by decide) rfl (by simp) (by decide)⟩

/-! ### C8: record invariants of the three parsers -/

theorem parseAtomEntry_shape (e : AtomEntry) (r : Record) (h : parseAtomEntry e = some r) :
    ∃ idv tv av uv pv auths rest,
      r = [("id", PyVal.str idv), ("title", PyVal.str tv), ("abstract", PyVal.str av),
           ("url", PyVal.str uv), ("pdf_url", pv), ("authors", PyVal.list auths),
           ("journal_info", PyVal.dict
             [("title", PyVal.str "arXiv"), ("impact_factor", PyVal.str "N/A"),
              ("jcr_quartile", PyVal.str "N/A"), ("cas_quartile", PyVal.str "N/A")])] ++ rest := by
  unfold parseAtomEntry at h
  revert h
  rcases hpub : e.publishedElem with _ | txtOpt <;>
    rcases hcat : e.primaryCategoryTerm with _ | term <;> intro h <;>
    simp only [Option.bind_eq_bind, Option.bind_eq_some, Option.pure_def,
      Option.some.injEq, exists_eq_left, exists_eq_left'] at h
  · obtain ⟨idE, _, idText, _, titleE, _, titleText, _, sumE, _, sumText, _, auths, _, hr⟩ := h
    subst hr
    exact ⟨_, _, _, _, _, _, _, rfl⟩
  · obtain ⟨idE, _, idText, _, titleE, _, titleText, _, sumE, _, sumText, _, auths, _, hr⟩ := h
    subst hr
    exact ⟨_, _, _, _, _, _, _, rfl⟩
  · obtain ⟨idE, _, idText, _, titleE, _, titleText, _, sumE, _, sumText, _, auths, _,
      txt, _, y, _, hr⟩ := h
    subst hr
    exact ⟨_, _, _, _, _, _, _, rfl⟩
  · obtain ⟨idE, _, idText, _, titleE, _, titleText, _, sumE, _, sumText, _, auths, _,
      txt, _, y, _, hr⟩ := h
    subst hr
    exact ⟨_, _, _, _, _, _, _, rfl⟩

theorem parsePubmedArticle_shape (a : PubmedArticle) (r : Record)
    (h : parsePubmedArticle a = some r) :
    ∃ idv tv av uv auths ji rest,
      r = [("id", idv), ("title", PyVal.str tv), ("abstract", PyVal.str av), ("url", uv),
           ("pdf_url", PyVal.none), ("authors", PyVal.list auths),
           ("journal_info", PyVal.dict ji)] ++ rest ∧
      (idv = PyVal.none ∨ ∃ s, idv = PyVal.str s) := by
  have hid : (match a.pmid with
      | Option.some s => PyVal.str s
      | Option.none => PyVal.none) = PyVal.none ∨
      ∃ s, (match a.pmid with
      | Option.some s => PyVal.str s
      | Option.none => PyVal.none) = PyVal.str s := by
    rcases a.pmid with _ | s
    · exact Or.inl rfl
    · exact Or.inr ⟨s, rfl⟩
  unfold parsePubmedArticle at h
  revert h
  rcases hpd : a.pubDateYear with _ | yopt <;> intro h
  · simp only [Option.some.injEq] at h
    subst h
    exact ⟨_, _, _, _, _, _, _, rfl, hid⟩
  · rcases yopt with _ | ytext
    · simp only [Option.some.injEq] at h
      subst h
      exact ⟨_, _, _, _, _, _, _, rfl, hid⟩
    · revert h
      rcases hy : pyInt? ytext with _ | y <;> intro h
      · exact absurd h (by simp [hy])
      · simp only [hy, Option.some.injEq] at h
        subst h
        exact ⟨_, _, _, _, _, _, _, rfl, hid⟩

theorem getDStr_none_or_str (o : Option (Option String)) (d : String) :
    getDStr o d = PyVal.none ∨ ∃ s, getDStr o d = PyVal.str s := by
  rcases o with _ | v
  · exact Or.inr ⟨d, rfl⟩
  · rcases v with _ | s
    · exact Or.inl rfl
    · exact Or.inr ⟨s, rfl⟩

theorem ssProcessPaper_shape (jd : JournalData) (f : Filters) (p : SSPaper) (r : Record)
    (h : ssProcessPaper jd f p = some r) :
    ∃ yv cv auths rest,
      r = [("id", getDStr p.paperId ""), ("title", getDStr p.title ""),
           ("abstract", getDStr p.abstract ""), ("year", yv), ("citationCount", cv),
           ("authors", PyVal.list auths)] ++ rest := by
  unfold ssProcessPaper at h
  simp only [Option.bind_eq_bind, Option.bind_eq_some, Option.pure_def,
    Option.some.injEq, exists_eq_left, exists_eq_left'] at h
  obtain ⟨auths, _, h⟩ := h
  split at h
  · simp only [Option.some.injEq] at h
    subst h
    exact ⟨_, _, _, _, rfl⟩
  · exact absurd h (by simp)

/-- Counterexample record: what the PubMed parser yields for an article whose
`PMID` element is missing. -/
def pubmedNoPmidRecord : Record :=
  [("id", PyVal.none), ("title", .str "T"), ("abstract", .str "No abstract available"),
   ("url", PyVal.none), ("pdf_url", PyVal.none), ("authors", .list []),
   ("journal_info", .dict [("title", PyVal.none), ("impact_factor", .str "N/A"),
     ("jcr_quartile", .str "N/A"), ("cas_quartile", .str "N/A")])]

/-- Counterexample to C8: a PubMed article with no `PMID` element parses to a
record whose `'id'` value is Python `None` (`'id': ... if ... else None`), not
a string — the claim "never a non-string" fails for the PubMed parser. -/
theorem parser_id_counterexample :
    pubmedParseDetails (.articles
        [⟨Option.none, Option.some "T", Option.none, Option.none, Option.none, Option.none⟩]) =
      [pubmedNoPmidRecord] ∧
    pyGet pubmedNoPmidRecord "id" = Option.some PyVal.none ∧
    ∀ s, PyVal.none ≠ PyVal.str s :=
  ⟨rfl, rfl, fun _ h => PyVal.noConfusion h⟩

/-- C8 (amended): every record produced by the three parsers has the keys
`'id'`, `'title'` and `'authors'`, with `'authors'` always a list; for arXiv
the `'id'` and `'title'` values are always strings; for PubMed the `'title'`
is always a string but the `'id'` may be Python `None` (missing `PMID`); for
Semantic Scholar `'id'` and `'title'` are strings unless the JSON field is
`null`, in which case they are `None`. -/
theorem parser_record_invariants :
    (∀ (body : ArxivBody) (r : Record), r ∈ arxivParseResponse body →
      (∃ s, pyGet r "id" = Option.some (PyVal.str s)) ∧
      (∃ s, pyGet r "title" = Option.some (PyVal.str s)) ∧
      (∃ l, pyGet r "authors" = Option.some (PyVal.list l))) ∧
    (∀ (body : PubmedBody) (r : Record), r ∈ pubmedParseDetails body →
      (∃ v, pyGet r "id" = Option.some v ∧ (v = PyVal.none ∨ ∃ s, v = PyVal.str s)) ∧
      (∃ s, pyGet r "title" = Option.some (PyVal.str s)) ∧
      (∃ l, pyGet r "authors" = Option.some (PyVal.list l))) ∧
    (∀ (jd : JournalData) (f : Filters) (ps : List SSPaper) (r : Record),
      r ∈ ps.filterMap (ssProcessPaper jd f) →
      (∃ v, pyGet r "id" = Option.some v ∧ (v = PyVal.none ∨ ∃ s, v = PyVal.str s)) ∧
      (∃ v, pyGet r "title" = Option.some v ∧ (v = PyVal.none ∨ ∃ s, v = PyVal.str s)) ∧
      (∃ l, pyGet r "authors" = Option.some (PyVal.list l))) := by
  refine ⟨?_, ?_, ?_⟩
  · intro body r hr
    rcases body with _ | es
    · exact absurd hr (by simp [arxivParseResponse])
    · obtain ⟨e, _, hpe⟩ := List.mem_filterMap.mp hr
      obtain ⟨idv, tv, av, uv, pv, auths, rest, hshape⟩ := parseAtomEntry_shape e r hpe
      subst hshape
      exact ⟨⟨idv, by simp [pyGet]⟩, ⟨tv, by simp [pyGet]⟩, ⟨auths, by simp [pyGet]⟩⟩
  · intro body r hr
    rcases body with _ | l
    · exact absurd hr (by simp [pubmedParseDetails])
    · obtain ⟨a, _, hpa⟩ := List.mem_filterMap.mp hr
      obtain ⟨idv, tv, av, uv, auths, ji, rest, hshape, hdisj⟩ := parsePubmedArticle_shape a r hpa
      subst hshape
      exact ⟨⟨idv, by simp [pyGet], hdisj⟩, ⟨tv, by simp [pyGet]⟩, ⟨auths, by simp [pyGet]⟩⟩
  · intro jd f ps r hr
    obtain ⟨p, _, hpp⟩ := List.mem_filterMap.mp hr
    obtain ⟨yv, cv, auths, rest, hshape⟩ := ssProcessPaper_shape jd f p r hpp
    subst hshape
    exact ⟨⟨getDStr p.paperId "", by simp [pyGet], getDStr_none_or_str _ _⟩,
           ⟨getDStr p.title "", by simp [pyGet], getDStr_none_or_str _ _⟩,
           ⟨auths, by simp [pyGet]⟩⟩

/-- Witness for C8's amended statement at concrete parser inputs. -/
theorem parser_record_invariants_witness :
    (∃ s, pyGet pubmedNoPmidRecord "title" = Option.some (PyVal.str s)) ∧
    (∃ v, pyGet pubmedNoPmidRecord "id" = Option.some v ∧
      (v = PyVal.none ∨ ∃ s, v = PyVal.str s)) :=
  ⟨(parser_record_invariants.2.1 (.articles
      [⟨Option.none, Option.some "T", Option.none, Option.none, Option.none, Option.none⟩])
      pubmedNoPmidRecord (by simp [pubmedParseDetails, parsePubmedArticle, pubmedNoPmidRecord])).2.1,
   (parser_record_invariants.2.1 (.articles
      [⟨Option.none, Option.some "T", Option.none, Option.none, Option.none, Option.none⟩])
      pubmedNoPmidRecord (by simp [pubmedParseDetails, parsePubmedArticle, pubmedNoPmidRecord])).1⟩

/-! ### Manager lemmas (for C2, C3, C10) -/

/-- `r` carries the id value `"…"` `i`: the record's `"id"` key holds exactly
the string `i`. -/
def hasId (i : String) (r : Record) : Bool :=
  match pyGet r "id" with
  | Option.some (.str s) => s == i
  | _ => false

theorem pyGet_pySet_ne : ∀ (r : Record) (k k2 : String) (v : PyVal), k ≠ k2 →
    pyGet (pySet r k v) k2 = pyGet r k2
  | [], k, k2, v, h => by simp [pySet, pyGet, h]
  | (k', v') :: tl, k, k2, v, h => by
    by_cases hk : k' = k
    · subst hk
      simp [pySet, pyGet, h]
    · by_cases hk2 : k' = k2
      · subst hk2
        simp [pySet, pyGet, hk]
      · simp [pySet, pyGet, hk, hk2, pyGet_pySet_ne tl k k2 v h]

theorem pyGet_pySet_self : ∀ (r : Record) (k : String) (v : PyVal),
    pyGet (pySet r k v) k = some v
  | [], k, v => by simp [pySet, pyGet]
  | (k', v') :: tl, k, v => by
    by_cases hk : k' = k
    · subst hk
      simp [pySet, pyGet]
    · simp [pySet, pyGet, hk, pyGet_pySet_self tl k v]

theorem hasId_pySet_source (i : String) (r : Record) (v : PyVal) :
    hasId i (pySet r "source" v) = hasId i r := by
  unfold hasId
  rw [pyGet_pySet_ne r "source" "id" v (by decide)]

theorem pyMem_cons (x y : PyVal) (l : List PyVal) :
    pyMem x (y :: l) = (PyVal.beq x y || pyMem x l) := by
  simp [pyMem]

theorem pyBeq_str_self (i : String) : PyVal.beq (.str i) (.str i) = true := by
  simp [PyVal.beq]

theorem pyBeq_str_left_false (i : String) (v : PyVal) (h : v ≠ PyVal.str i) :
    PyVal.beq (.str i) v = false := by
  cases v with
  | str s =>
    simp only [PyVal.beq, beq_eq_false_iff_ne, ne_eq]
    exact fun hc => h (by rw [hc])
  | none => simp [PyVal.beq]
  | int n => simp [PyVal.beq]
  | list l => simp [PyVal.beq]
  | dict d => simp [PyVal.beq]

theorem hasId_true_of (i : String) (paper : Record)
    (h : pyGet paper "id" = Option.some (.str i)) : hasId i paper = true := by
  simp [hasId, h]

theorem hasId_false_of (i : String) (paper : Record) (pid : PyVal)
    (hpid : pyGet paper "id" = Option.some pid) (h : pid ≠ PyVal.str i) :
    hasId i paper = false := by
  unfold hasId
  rw [hpid]
  cases pid with
  | str s =>
    simp only [beq_eq_false_iff_ne, ne_eq]
    exact fun hc => h (by rw [hc])
  | none => rfl
  | int n => rfl
  | list l => rfl
  | dict d => rfl

theorem hasId_false_of_none (i : String) (paper : Record)
    (hpid : pyGet paper "id" = Option.none) : hasId i paper = false := by
  simp [hasId, hpid]

/-- What one source's dedupe pass does to the records with a given (truthy)
id `i`: if `i` was already seen nothing is added; otherwise exactly the first
paper with id `i` is appended, tagged with the source name.  The second
conjunct tracks the seen-set. -/
theorem dedupeSource_spec (n i : String) (hi : i ≠ "") (papers : List Record) :
    ∀ (st : List Record × List PyVal),
      (dedupeSource n papers st).1.filter (hasId i) =
        st.1.filter (hasId i) ++
          (if pyMem (PyVal.str i) st.2 then []
           else match papers.find? (hasId i) with
             | Option.some r => [pySet r "source" (.str n)]
             | Option.none => []) ∧
      pyMem (PyVal.str i) (dedupeSource n papers st).2 =
        (pyMem (PyVal.str i) st.2 || papers.any (hasId i)) := by
  induction papers with
  | nil =>
    intro st
    constructor
    · cases hmem : pyMem (PyVal.str i) st.2 <;> simp [dedupeSource, hmem]
    · simp [dedupeSource]
  | cons paper rest ih =>
    intro st
    rcases hpid : pyGet paper "id" with _ | pid
    · have hhas : hasId i paper = false := hasId_false_of_none i paper hpid
      have hstep : dedupeSource n (paper :: rest) st = dedupeSource n rest st := by
        simp [dedupeSource, hpid]
      rw [hstep]
      obtain ⟨ih1, ih2⟩ := ih st
      refine ⟨?_, ?_⟩
      · rw [ih1]
        simp [List.find?, hhas]
      · rw [ih2]
        simp [hhas]
    · by_cases hcond : (truthy pid && !pyMem pid st.2) = true
      · have hstep : dedupeSource n (paper :: rest) st =
            dedupeSource n rest (st.1 ++ [pySet paper "source" (.str n)], pid :: st.2) := by
          simp [dedupeSource, hpid, hcond]
        rw [hstep]
        obtain ⟨ih1, ih2⟩ := ih (st.1 ++ [pySet paper "source" (.str n)], pid :: st.2)
        by_cases hpi : pid = PyVal.str i
        · subst hpi
          have hhas : hasId i paper = true := hasId_true_of i paper hpid
          have hmemold : pyMem (PyVal.str i) st.2 = false := by
            have h2 : (!pyMem (PyVal.str i) st.2) = true := by
              have := hcond
              rw [Bool.and_eq_true] at this
              exact this.2
            simpa using h2
          have hmemnew : pyMem (PyVal.str i) (PyVal.str i :: st.2) = true := by
            simp [pyMem_cons, pyBeq_str_self]
          refine ⟨?_, ?_⟩
          · rw [ih1]
            simp [hmemnew, hmemold, List.filter_append, List.find?, hhas,
              hasId_pySet_source, hhas]
          · rw [ih2]
            simp [hmemnew, hmemold, hhas]
        · have hhas : hasId i paper = false := hasId_false_of i paper pid hpid hpi
          have hbeq : PyVal.beq (PyVal.str i) pid = false := pyBeq_str_left_false i pid hpi
          have hmemnew : pyMem (PyVal.str i) (pid :: st.2) = pyMem (PyVal.str i) st.2 := by
            simp [pyMem_cons, hbeq]
          refine ⟨?_, ?_⟩
          · rw [ih1]
            simp [hmemnew, List.filter_append, List.find?, hhas, hasId_pySet_source]
          · rw [ih2]
            simp [hmemnew, hhas]
      · have hstep : dedupeSource n (paper :: rest) st = dedupeSource n rest st := by
          simp [dedupeSource, hpid, hcond]
        rw [hstep]
        obtain ⟨ih1, ih2⟩ := ih st
        by_cases hpi : pid = PyVal.str i
        · subst hpi
          have htr : truthy (PyVal.str i) = true := by simp [truthy, hi]
          have hmem : pyMem (PyVal.str i) st.2 = true := by
            rcases hm : pyMem (PyVal.str i) st.2
            · exact absurd (by simp [htr, hm]) hcond
            · rfl
          have hhas : hasId i paper = true := hasId_true_of i paper hpid
          refine ⟨?_, ?_⟩
          · rw [ih1]
            simp [hmem]
          · rw [ih2]
            simp [hmem]
        · have hhas : hasId i paper = false := hasId_false_of i paper pid hpid hpi
          refine ⟨?_, ?_⟩
          · rw [ih1]
            simp [List.find?, hhas]
          · rw [ih2]
            simp [hhas]

/-- The first `(source, record)` with id `i` across per-source result lists in
fan-out order. -/
def firstHit (i : String) : List (String × List Record) → Option (String × Record)
  | [] => Option.none
  | (n, ps) :: rest =>
    match ps.find? (hasId i) with
    | Option.some r => Option.some (n, r)
    | Option.none => firstHit i rest

/-- The merged result's records with a given (truthy) id `i` are exactly the
first hit across sources, tagged with its source name. -/
theorem mergeGo_spec (i : String) (hi : i ≠ "") (pairs : List (String × List Record)) :
    ∀ (st : List Record × List PyVal),
      (mergeGo pairs st).1.filter (hasId i) =
        st.1.filter (hasId i) ++
          (if pyMem (PyVal.str i) st.2 then []
           else match firstHit i pairs with
             | Option.some (n, r) => [pySet r "source" (.str n)]
             | Option.none => []) ∧
      pyMem (PyVal.str i) (mergeGo pairs st).2 =
        (pyMem (PyVal.str i) st.2 || pairs.any (fun p => p.2.any (hasId i))) := by
  induction pairs with
  | nil =>
    intro st
    constructor
    · cases hmem : pyMem (PyVal.str i) st.2 <;> simp [mergeGo, hmem, firstHit]
    · simp [mergeGo]
  | cons pair rest ih =>
    intro st
    obtain ⟨n, ps⟩ := pair
    have hstep : mergeGo ((n, ps) :: rest) st = mergeGo rest (dedupeSource n ps st) := rfl
    rw [hstep]
    obtain ⟨d1, d2⟩ := dedupeSource_spec n i hi ps st
    obtain ⟨ih1, ih2⟩ := ih (dedupeSource n ps st)
    refine ⟨?_, ?_⟩
    · rw [ih1, d1, d2]
      cases hmem : pyMem (PyVal.str i) st.2
      · cases hfind : ps.find? (hasId i) with
        | none =>
          have hany : ps.any (hasId i) = false := by
            rcases hany : ps.any (hasId i)
            · rfl
            · obtain ⟨x, hx, hpx⟩ := List.any_eq_true.mp hany
              rw [List.find?_eq_none] at hfind
              exact absurd hpx (by simp [hfind x hx])
          simp [hmem, hany, firstHit, hfind]
        | some r =>
          have hany : ps.any (hasId i) = true :=
            List.any_eq_true.mpr ⟨r, List.mem_of_find?_eq_some hfind, List.find?_some hfind⟩
          simp [hmem, hany, firstHit, hfind]
      · simp [hmem, firstHit]
    · rw [ih2, d2]
      simp [Bool.or_assoc]

/-- The manager loop equals: the registered subset is queried (in order) and
the merge folds each registered source's contribution. -/
theorem managerGo_eq (reg : Registry) (q : String) (f : Filters) (sel : List String) :
    ∀ (acc : List Record × List PyVal),
      managerGo reg q f sel acc =
        (sel.filter (fun n => (lookupReg reg n).isSome),
         mergeGo (sel.filterMap (fun n => (lookupReg reg n).map
           (fun b => (n, contribution (b q f))))) acc) := by
  induction sel with
  | nil => intro acc; rfl
  | cons n rest ih =>
    intro acc
    rcases hb : lookupReg reg n with _ | b
    · simp [managerGo, hb, ih, mergeGo]
    · simp [managerGo, hb, ih, mergeGo]

theorem firstHit_append (i : String) (l1 l2 : List (String × List Record))
    (h : ∀ p ∈ l1, p.2.find? (hasId i) = Option.none) :
    firstHit i (l1 ++ l2) = firstHit i l2 := by
  induction l1 with
  | nil => rfl
  | cons p rest ih =>
    obtain ⟨n, ps⟩ := p
    have hp := h (n, ps) (List.mem_cons_self _ _)
    simp only [List.cons_append, firstHit, hp]
    exact ih (fun p hp2 => h p (List.mem_cons_of_mem _ hp2))

/-! ### C3: fan-out error isolation -/

/-- C3: for every registry, query, filters and client behaviours (raising
clients included), `search_papers_all_sources` returns a plain pair of the
queried names and merged records — the embedded function is total, so no
exception escapes; the queried sources are exactly the registered ones among
`filters["sources"]` in order (unregistered names are skipped, not an error);
and the merged list folds per-source contributions where `contribution` maps
a raising client (or one returning `None`) to the empty list, so a failing
source contributes nothing while the remaining sources still participate. -/
theorem fanout_error_isolation (reg : Registry) (q : String) (f : Filters) :
    searchPapersAllSources reg q f =
      ((f.sources.getD ["pubmed", "semanticscholar"]).filter
        (fun n => (lookupReg reg n).isSome),
       mergeAllSources ((f.sources.getD ["pubmed", "semanticscholar"]).filterMap
        (fun n => (lookupReg reg n).map (fun b => (n, contribution (b q f)))))) := by
  simp only [searchPapersAllSources, mergeAllSources, managerGo_eq]

/-! ### C2: cross-source dedup, first source in order wins -/

/-- C2: if a selected, registered source `nA` returns a record `rA` with a
(non-empty) id `i` — `rA` being its first such record — a later selected,
registered source `nB` also returns a record with id `i`, and no source
before `nA` contributes id `i`, then the merged result contains exactly one
record with id `i`: `rA` produced by the earlier source `nA`, with its
`'source'` field set to `nA`. -/
theorem dedup_first_source_wins
    (reg : Registry) (q : String) (f : Filters) (i : String)
    (pre mid post : List String) (nA nB : String) (bA bB : ClientBehavior)
    (psA psB : List Record) (rA : Record)
    (hsel : f.sources.getD ["pubmed", "semanticscholar"] = pre ++ nA :: (mid ++ nB :: post))
    (hA : lookupReg reg nA = Option.some bA)
    (hB : lookupReg reg nB = Option.some bB)
    (hresA : bA q f = .ok (Option.some psA))
    (hresB : bB q f = .ok (Option.some psB))
    (hfirst : psA.find? (hasId i) = Option.some rA)
    (hBhit : psB.any (hasId i) = true)
    (hi : i ≠ "")
    (hpre : ∀ n ∈ pre, ∀ b, lookupReg reg n = Option.some b →
      (contribution (b q f)).any (hasId i) = false) :
    ((searchPapersAllSources reg q f).2).filter (hasId i) =
      [pySet rA "source" (.str nA)] := by
  have hout : (searchPapersAllSources reg q f).2 =
      (mergeGo ((f.sources.getD ["pubmed", "semanticscholar"]).filterMap
        (fun n => (lookupReg reg n).map (fun b => (n, contribution (b q f)))))
        ([], [])).1 := by
    simp only [searchPapersAllSources, managerGo_eq]
  rw [hout]
  obtain ⟨hm, _⟩ := mergeGo_spec i hi
    ((f.sources.getD ["pubmed", "semanticscholar"]).filterMap
      (fun n => (lookupReg reg n).map (fun b => (n, contribution (b q f))))) ([], [])
  rw [hm]
  have hpre' : ∀ p ∈ pre.filterMap
      (fun n => (lookupReg reg n).map (fun b => (n, contribution (b q f)))),
      p.2.find? (hasId i) = Option.none := by
    intro p hp
    obtain ⟨n, hn, hgn⟩ := List.mem_filterMap.mp hp
    obtain ⟨b, hb, hpb⟩ := Option.map_eq_some'.mp hgn
    subst hpb
    rw [List.find?_eq_none]
    intro x hx
    have := hpre n hn b hb
    rw [List.any_eq_false] at this
    simpa using this x hx
  rw [hsel, List.filterMap_append, firstHit_append i _ _ hpre']
  simp only [List.filterMap_cons, hA, Option.map_some', hresA]
  show [].filter (hasId i) ++
      (if pyMem (PyVal.str i) [] then []
       else match firstHit i ((nA, contribution (Except.ok (Option.some psA))) :: _) with
         | Option.some (n, r) => [pySet r "source" (.str n)]
         | Option.none => []) = _
  simp [firstHit, contribution, hfirst, pyMem]

/-! ### C10: records with falsy ids never reach the merged result -/

theorem dedupeSource_preserves (P : Record → Prop)
    (hP : ∀ (n : String) (paper : Record) (pid : PyVal),
      pyGet paper "id" = Option.some pid → truthy pid = true →
      P (pySet paper "source" (.str n)))
    (n : String) (papers : List Record) :
    ∀ st, (∀ r ∈ st.1, P r) → ∀ r ∈ (dedupeSource n papers st).1, P r := by
  induction papers with
  | nil => intro st h; exact h
  | cons paper rest ih =>
    intro st hst
    rcases hpid : pyGet paper "id" with _ | pid
    · have hstep : dedupeSource n (paper :: rest) st = dedupeSource n rest st := by
        simp [dedupeSource, hpid]
      rw [hstep]
      exact ih st hst
    · by_cases hcond : (truthy pid && !pyMem pid st.2) = true
      · have hstep : dedupeSource n (paper :: rest) st =
            dedupeSource n rest (st.1 ++ [pySet paper "source" (.str n)], pid :: st.2) := by
          simp [dedupeSource, hpid, hcond]
        rw [hstep]
        refine ih _ ?_
        intro r hr
        rcases List.mem_append.mp hr with h1 | h2
        · exact hst r h1
        · rw [List.mem_singleton] at h2
          subst h2
          have htr : truthy pid = true := by
            rw [Bool.and_eq_true] at hcond
            exact hcond.1
          exact hP n paper pid hpid htr
      · have hstep : dedupeSource n (paper :: rest) st = dedupeSource n rest st := by
          simp [dedupeSource, hpid, hcond]
        rw [hstep]
        exact ih st hst

theorem mergeGo_preserves (P : Record → Prop)
    (hP : ∀ (n : String) (paper : Record) (pid : PyVal),
      pyGet paper "id" = Option.some pid → truthy pid = true →
      P (pySet paper "source" (.str n)))
    (pairs : List (String × List Record)) :
    ∀ st, (∀ r ∈ st.1, P r) → ∀ r ∈ (mergeGo pairs st).1, P r := by
  induction pairs with
  | nil => intro st h; exact h
  | cons pair rest ih =>
    intro st hst
    obtain ⟨n, ps⟩ := pair
    exact ih (dedupeSource n ps st) (dedupeSource_preserves P hP n ps st hst)

/-- C10: every record in the merged result of `search_papers_all_sources`
has an `'id'` key holding a truthy value (so a source record whose id is
absent, `None` or `""` is dropped and never appears — even if it is the only
record with that id) and carries a `'source'` tag. -/
theorem merged_records_truthy_id (reg : Registry) (q : String) (f : Filters) :
    ∀ r ∈ (searchPapersAllSources reg q f).2,
      (∃ v, pyGet r "id" = Option.some v ∧ truthy v = true) ∧
      (∃ n, pyGet r "source" = Option.some (PyVal.str n)) := by
  have hout : (searchPapersAllSources reg q f).2 =
      (mergeGo ((f.sources.getD ["pubmed", "semanticscholar"]).filterMap
        (fun n => (lookupReg reg n).map (fun b => (n, contribution (b q f)))))
        ([], [])).1 := by
    simp only [searchPapersAllSources, managerGo_eq]
  rw [hout]
  refine mergeGo_preserves _ ?_ _ ([], []) (by simp)
  intro n paper pid hpid htr
  refine ⟨⟨pid, ?_, htr⟩, ⟨n, ?_⟩⟩
  · rw [pyGet_pySet_ne paper "source" "id" _ (by decide)]
    exact hpid
  · exact pyGet_pySet_self paper "source" _

/-- Fixture for the C2 witness: two registered sources returning a record
with the same id `"X"`. -/
def recX1 : Record := [("id", PyVal.str "X"), ("title", PyVal.str "from pubmed")]

def recX2 : Record := [("id", PyVal.str "X"), ("title", PyVal.str "from s2")]

def behPub : ClientBehavior := fun _ _ => .ok (Option.some [recX1])

def behSS : ClientBehavior := fun _ _ => .ok (Option.some [recX2])

def regDup : Registry := [("pubmed", behPub), ("semanticscholar", behSS)]

/-- Witness for C2 at a concrete two-source registry where both sources
return a record with id `"X"`. -/
theorem dedup_first_source_wins_witness :
    ((searchPapersAllSources regDup "q" {}).2).filter (hasId "X") =
      [pySet recX1 "source" (PyVal.str "pubmed")] :=
  dedup_first_source_wins regDup "q" {} "X" [] [] [] "pubmed" "semanticscholar"
    behPub behSS [recX1] [recX2] recX1 rfl rfl rfl rfl rfl rfl (by decide) (by decide)
    (by simp)

/-- Fixture for the C10 witness: a source returning records with absent,
`None`, empty and truthy ids. -/
def behMixed : ClientBehavior := fun _ _ =>
  .ok (Option.some
    [[("id", PyVal.none), ("title", PyVal.str "a")],
     [("id", PyVal.str ""), ("title", PyVal.str "b")],
     [("title", PyVal.str "c")],
     [("id", PyVal.str "Z"), ("title", PyVal.str "d")]])

def regMixed : Registry := [("pubmed", behMixed)]

/-- Witness for C10: the only record surviving the merge at a concrete mixed
registry indeed has a truthy id and a source tag. -/
theorem merged_records_truthy_id_witness :
    (∃ v, pyGet [("id", PyVal.str "Z"), ("title", PyVal.str "d"),
        ("source", PyVal.str "pubmed")] "id" = Option.some v ∧ truthy v = true) ∧
    (∃ n, pyGet [("id", PyVal.str "Z"), ("title", PyVal.str "d"),
        ("source", PyVal.str "pubmed")] "source" = Option.some (PyVal.str n)) :=
  merged_records_truthy_id regMixed "q" {}
    [("id", PyVal.str "Z"), ("title", PyVal.str "d"), ("source", PyVal.str "pubmed")]
    (by rw [show (searchPapersAllSources regMixed "q" {}).2 =
          [[("id", PyVal.str "Z"), ("title", PyVal.str "d"), ("source", PyVal.str "pubmed")]]
        from rfl]
        exact List.mem_singleton.mpr rfl)

/-! ### C7: Semantic Scholar year-range handling -/

theorem ssLoop_requests (jd : JournalData) (f : Filters)
    (srv : Nat → NetResult (List SSPaper)) (req : SSRequest) :
    ∀ (fuel attempt : Nat), ∀ x ∈ (ssLoop jd f srv req attempt fuel).1, x = req := by
  intro fuel
  induction fuel with
  | zero => intro attempt x hx; exact absurd hx (by simp [ssLoop])
  | succ fuel ih =>
    intro attempt x hx
    rcases hsrv : srv attempt with ⟨code, body⟩ | _
    · have hstep : ssLoop jd f srv req attempt (fuel + 1) =
          (if code = 429 then
            (req :: (ssLoop jd f srv req (attempt + 1) fuel).1,
             (ssLoop jd f srv req (attempt + 1) fuel).2)
          else if code = 200 then ([req], body.filterMap (ssProcessPaper jd f))
          else if fuel = 0 then ([req], [])
          else (req :: (ssLoop jd f srv req (attempt + 1) fuel).1,
                (ssLoop jd f srv req (attempt + 1) fuel).2)) := by
        simp only [ssLoop, hsrv]
      rw [hstep] at hx
      by_cases h429 : code = 429
      · rw [if_pos h429] at hx
        rcases List.mem_cons.mp hx with h | h
        · exact h
        · exact ih (attempt + 1) x h
      · by_cases h200 : code = 200
        · rw [if_neg h429, if_pos h200] at hx
          exact List.mem_singleton.mp hx
        · by_cases hf : fuel = 0
          · rw [if_neg h429, if_neg h200, if_pos hf] at hx
            exact List.mem_singleton.mp hx
          · rw [if_neg h429, if_neg h200, if_neg hf] at hx
            rcases List.mem_cons.mp hx with h | h
            · exact h
            · exact ih (attempt + 1) x h
    · have hstep : ssLoop jd f srv req attempt (fuel + 1) =
          (if fuel = 0 then ([req], [])
           else (req :: (ssLoop jd f srv req (attempt + 1) fuel).1,
                 (ssLoop jd f srv req (attempt + 1) fuel).2)) := by
        simp only [ssLoop, hsrv]
      rw [hstep] at hx
      by_cases hf : fuel = 0
      · rw [if_pos hf] at hx
        exact List.mem_singleton.mp hx
      · rw [if_neg hf] at hx
        rcases List.mem_cons.mp hx with h | h
        · exact h
        · exact ih (attempt + 1) x h

theorem ssLoop_results (jd : JournalData) (f : Filters)
    (srv : Nat → NetResult (List SSPaper)) (req : SSRequest) :
    ∀ (fuel attempt : Nat), ∀ r ∈ (ssLoop jd f srv req attempt fuel).2,
      ∃ p, ssProcessPaper jd f p = some r := by
  intro fuel
  induction fuel with
  | zero => intro attempt r hr; exact absurd hr (by simp [ssLoop])
  | succ fuel ih =>
    intro attempt r hr
    rcases hsrv : srv attempt with ⟨code, body⟩ | _
    · have hstep : ssLoop jd f srv req attempt (fuel + 1) =
          (if code = 429 then
            (req :: (ssLoop jd f srv req (attempt + 1) fuel).1,
             (ssLoop jd f srv req (attempt + 1) fuel).2)
          else if code = 200 then ([req], body.filterMap (ssProcessPaper jd f))
          else if fuel = 0 then ([req], [])
          else (req :: (ssLoop jd f srv req (attempt + 1) fuel).1,
                (ssLoop jd f srv req (attempt + 1) fuel).2)) := by
        simp only [ssLoop, hsrv]
      rw [hstep] at hr
      by_cases h429 : code = 429
      · rw [if_pos h429] at hr
        exact ih (attempt + 1) r hr
      · by_cases h200 : code = 200
        · rw [if_neg h429, if_pos h200] at hr
          obtain ⟨p, _, hp⟩ := List.mem_filterMap.mp hr
          exact ⟨p, hp⟩
        · by_cases hf : fuel = 0
          · rw [if_neg h429, if_neg h200, if_pos hf] at hr
            exact absurd hr (List.not_mem_nil r)
          · rw [if_neg h429, if_neg h200, if_neg hf] at hr
            exact ih (attempt + 1) r hr
    · have hstep : ssLoop jd f srv req attempt (fuel + 1) =
          (if fuel = 0 then ([req], [])
           else (req :: (ssLoop jd f srv req (attempt + 1) fuel).1,
                 (ssLoop jd f srv req (attempt + 1) fuel).2)) := by
        simp only [ssLoop, hsrv]
      rw [hstep] at hr
      by_cases hf : fuel = 0
      · rw [if_pos hf] at hr
        exact absurd hr (List.not_mem_nil r)
      · rw [if_neg hf] at hr
        exact ih (attempt + 1) r hr

theorem ssProcessPaper_filters_true (jd : JournalData) (f : Filters) (p : SSPaper)
    (r : Record) (h : ssProcessPaper jd f p = some r) : ssApplyFilters r f = true := by
  unfold ssProcessPaper at h
  simp only [Option.bind_eq_bind, Option.bind_eq_some, Option.pure_def,
    Option.some.injEq, exists_eq_left, exists_eq_left'] at h
  obtain ⟨auths, _, h⟩ := h
  split at h
  · next hgate =>
    simp only [Option.some.injEq] at h
    subst h
    exact hgate
  · exact absurd h (by simp)

theorem ssApplyFilters_year (r : Record) (f : Filters) (s e : Int)
    (hyr : f.year_range = Option.some (s, e)) (hs : s ≠ 0) (he : e ≠ 0)
    (h : ssApplyFilters r f = true) :
    ∃ y, pyGet r "year" = Option.some (PyVal.int y) ∧ s ≤ y ∧ y ≤ e := by
  unfold ssApplyFilters at h
  simp only [hyr, hs, he, ne_eq, not_false_iff, and_self, if_true] at h
  rw [Bool.and_eq_true, Bool.and_eq_true, Bool.and_eq_true] at h
  have hyear := h.1.1.1
  revert hyear
  rcases hy : pyGet r "year" with _ | v
  · intro hyear; exact absurd hyear (by simp)
  · cases v with
    | int y =>
      intro hyear
      simp only [decide_eq_true_eq] at hyear
      exact ⟨y, rfl, hyear.2.1, hyear.2.2⟩
    | none => intro hyear; exact absurd hyear (by simp)
    | str s => intro hyear; exact absurd hyear (by simp)
    | list l => intro hyear; exact absurd hyear (by simp)
    | dict d => intro hyear; exact absurd hyear (by simp)

/-- C7: for every async Semantic Scholar search whose filters carry
`year_range = (start, end)` with both years truthy, every outgoing request
carries the `year` parameter `"<start>-<end>"`, and every returned record has
a present integer `year` `y` with `start ≤ y ≤ end` (records with missing or
out-of-range year are excluded by `_apply_filters`). -/
theorem ss_year_filter (jd : JournalData) (q : String) (f : Filters)
    (srv : Nat → NetResult (List SSPaper)) (s e : Int)
    (hyr : f.year_range = Option.some (s, e)) (hs : s ≠ 0) (he : e ≠ 0) :
    (∀ req ∈ (ssSearchPapers jd q f srv).1,
      req.year = Option.some (toString s ++ "-" ++ toString e)) ∧
    (∀ r ∈ (ssSearchPapers jd q f srv).2,
      ∃ y, pyGet r "year" = Option.some (PyVal.int y) ∧ s ≤ y ∧ y ≤ e) := by
  constructor
  · intro req hreq
    have hx := ssLoop_requests jd f srv _ 3 0 req hreq
    subst hx
    simp [hyr, hs, he]
  · intro r hr
    obtain ⟨p, hp⟩ := ssLoop_results jd f srv _ 3 0 r hr
    exact ssApplyFilters_year r f s e hyr hs he (ssProcessPaper_filters_true jd f p r hp)

/-- Fixture paper for the C7 witness. -/
def ssPaper2021 : SSPaper :=
  ⟨Option.some (Option.some "a"), Option.some (Option.some "t"), Option.none,
   Option.some 2021, Option.none, Option.some [], Option.some "V", Option.none, Option.none⟩

def ssPaper2019 : SSPaper :=
  ⟨Option.some (Option.some "b"), Option.some (Option.some "t"), Option.none,
   Option.some 2019, Option.none, Option.some [], Option.some "V", Option.none, Option.none⟩

def ssPaperNoYear : SSPaper :=
  ⟨Option.some (Option.some "c"), Option.some (Option.some "t"), Option.none,
   Option.none, Option.none, Option.some [], Option.some "V", Option.none, Option.none⟩

/-- Witness for C7 with `year_range = (2020, 2024)` on a mixed server
response. -/
theorem ss_year_filter_witness :
    (∀ req ∈ (ssSearchPapers [] "q" { year_range := Option.some (2020, 2024) }
        (fun _ => .status 200 [ssPaper2021, ssPaper2019, ssPaperNoYear])).1,
      req.year = Option.some (toString (2020 : Int) ++ "-" ++ toString (2024 : Int))) ∧
    (∀ r ∈ (ssSearchPapers [] "q" { year_range := Option.some (2020, 2024) }
        (fun _ => .status 200 [ssPaper2021, ssPaper2019, ssPaperNoYear])).2,
      ∃ y, pyGet r "year" = Option.some (PyVal.int y) ∧ 2020 ≤ y ∧ y ≤ 2024) :=
  ss_year_filter [] "q" { year_range := Option.some (2020, 2024) }
    (fun _ => .status 200 [ssPaper2021, ssPaper2019, ssPaperNoYear]) 2020 2024
    rfl (by decide) (by decide)

end NNScholar
